import Mathlib

/-!
Formal model of the nvelope conversion engine (src/nvelope/nvelope.py).

The embedding is shallow: Python runtime values become the inductive `Val`,
Python exceptions become the inductive `PyErr`, and fallible Python methods
become Lean functions into `Except PyErr Val`.  A `Conversion` object becomes
the structure `Conv` holding its `to_json`/`from_json` functions and its
`schema` dictionary.  Python dictionaries are modelled as association lists in
insertion order (JSON object keys are strings, and dataclass field names are
unique, so first-match lookup coincides with Python dict lookup).
-/

/-- Python runtime values as they flow through the nvelope engine: the JSON
value model (None, bool, int, float, str, list, dict with string keys in
insertion order) together with the library's own runtime objects: `Obj`
dataclass instances (`vobj`, tagged with the class name and carrying
`asdict`'s name-to-value mapping in field order), `Arr` instances (`varr`),
and the two `MaybeMissing` variants `Jst`/`Miss`.  Float payloads are
modelled as exact rationals (no IEEE rounding is relevant: floats are only
ever passed through identity conversions). -/
inductive Val where
  | vnone : Val
  | vbool (b : Bool) : Val
  | vint (n : Int) : Val
  | vfloat (q : Rat) : Val
  | vstr (s : String) : Val
  | vlist (xs : List Val) : Val
  | vdict (kvs : List (String × Val)) : Val
  | vobj (cls : String) (flds : List (String × Val)) : Val
  | varr (cls : String) (items : List Val) : Val
  | vjst (v : Val) : Val
  | vmiss : Val
  deriving Repr

/-- Python types that appear as `isinstance` targets in the engine. -/
inductive PyType where
  | tstr | tint | tfloat | tbool | tlist | tdict
  deriving Repr, DecidableEq

/-- Python `isinstance` on the modelled values.  `bool` is a subclass of
`int` in Python, so `isinstance(True, int)` holds; no other subclass
relation exists between the modelled types. -/
def isinstance : Val → PyType → Bool
  | .vstr _, .tstr => true
  | .vint _, .tint => true
  | .vbool _, .tint => true
  | .vbool _, .tbool => true
  | .vfloat _, .tfloat => true
  | .vlist _, .tlist => true
  | .vdict _, .tdict => true
  | _, _ => false

/-- Python `repr` of a type object, e.g. `repr(int) = "<class 'int'>"`. -/
def typeRepr : PyType → String
  | .tstr => "<class 'str'>"
  | .tint => "<class 'int'>"
  | .tfloat => "<class 'float'>"
  | .tbool => "<class 'bool'>"
  | .tlist => "<class 'list'>"
  | .tdict => "<class 'dict'>"

mutual
/-- Python `repr` of a value, as used inside the engine's error messages.
Simplified where Python's full rules do not matter to any property proved
here: strings are always single-quoted without escape processing, and float
repr shows the exact rational payload. `Jst`/`Miss`/dataclass/`Arr` reprs
follow the `__repr__` definitions in the source. -/
def pyRepr : Val → String
  | .vnone => "None"
  | .vbool true => "True"
  | .vbool false => "False"
  | .vint n => toString n
  | .vfloat q => toString q.num ++ "/" ++ toString q.den
  | .vstr s => "'" ++ s ++ "'"
  | .vlist xs => "[" ++ pyReprList xs ++ "]"
  | .vdict kvs => "\x7b" ++ pyReprDict kvs ++ "\x7d"
  | .vobj cls flds => cls ++ "(" ++ pyReprFields flds ++ ")"
  | .varr cls items => cls ++ "[" ++ pyReprList items ++ "]"
  | .vjst v => "Jst[" ++ pyRepr v ++ "]"
  | .vmiss => "Miss"

/-- Comma-separated reprs of list elements. -/
def pyReprList : List Val → String
  | [] => ""
  | [v] => pyRepr v
  | v :: rest => pyRepr v ++ ", " ++ pyReprList rest

/-- Comma-separated `'key': value` reprs of dict entries. -/
def pyReprDict : List (String × Val) → String
  | [] => ""
  | [(k, v)] => "'" ++ k ++ "': " ++ pyRepr v
  | (k, v) :: rest => "'" ++ k ++ "': " ++ pyRepr v ++ ", " ++ pyReprDict rest

/-- Comma-separated `field=value` reprs of dataclass fields. -/
def pyReprFields : List (String × Val) → String
  | [] => ""
  | [(k, v)] => k ++ "=" ++ pyRepr v
  | (k, v) :: rest => k ++ "=" ++ pyRepr v ++ ", " ++ pyReprFields rest
end

/-- Python exceptions raised by the engine.  `nvelopeError` models
`NvelopeError(path, *args)` together with its `__cause__` chain established
by `raise ... from e`; `keyError` models the `KeyError` of a failed dict
lookup; `assertionError` a failed `assert`; `typeError` a `TypeError`;
`configError` models the configuration failure of the definition-time
validator (spec section 4.6), carrying the enumerated differences. -/
inductive PyErr where
  | nvelopeError (path : String) (args : List String) (cause : Option PyErr) : PyErr
  | assertionError (msg : String) : PyErr
  | keyError (key : String) : PyErr
  | typeError (msg : String) : PyErr
  | valueError (msg : String) : PyErr
  | configError (msg : String) (missing : List String) (extra : List String) : PyErr
  deriving Repr

/-- The string form `NvelopeError.__str__`: `Path: '<path>'`, and when detail
args were given, `; ` followed by the args joined by commas.  (Python renders
the path with `repr`; for the identifier-like paths the engine builds this is
plain single quotes.) -/
def nvelopeErrorStr (path : String) (args : List String) : String :=
  let base := "Path: " ++ "'" ++ path ++ "'"
  match args with
  | [] => base
  | _ => base ++ "; " ++ String.intercalate "," args

/-- First-match lookup in an association list: Python `d[k]` / `d.get(k)` on
a dict whose keys are unique. -/
def lookupS {α : Type} : List (String × α) → String → Option α
  | [], _ => none
  | (k, v) :: rest, key => if k = key then some v else lookupS rest key

/-- Python `k in d` on a string-keyed dict. -/
def hasKeyS {α : Type} (d : List (String × α)) (key : String) : Bool :=
  (lookupS d key).isSome

/-- Python `d[k] = v` on a string-keyed dict: replaces the value in place if
the key is present, otherwise appends the new entry (insertion order). -/
def insertS {α : Type} : List (String × α) → String → α → List (String × α)
  | [], key, v => [(key, v)]
  | (k, w) :: rest, key, v =>
      if k = key then (k, v) :: rest else (k, w) :: insertS rest key v

/-- Membership of a string in a list of strings. -/
def elemS : String → List String → Bool
  | _, [] => false
  | k, n :: ns => if n = k then true else elemS k ns

/-- No duplicate entries in a list of strings (dataclass field names are
unique by construction). -/
def nodupS : List String → Bool
  | [] => true
  | n :: ns => !elemS n ns && nodupS ns

/-- A `Conversion` object: the bidirectional codec contract plus the schema
fragment its `schema()` method returns (a string-keyed JSON object). -/
structure Conv where
  to_json : Val → Except PyErr Val
  from_json : Val → Except PyErr Val
  schema : List (String × Val)

/-- ConversionOf: a conversion assembled from the given functions and schema
value (nvelope.py lines 309-327). -/
def conversionOf (toJ : Val → Except PyErr Val) (fromJ : Val → Except PyErr Val)
    (schema : List (String × Val)) : Conv :=
  { to_json := toJ, from_json := fromJ, schema := schema }

/-- The `identity` function used by the primitive conversions. -/
def identityF : Val → Except PyErr Val := fun v => .ok v

/-- identity_conv: the identity codec with an empty schema. -/
def identity_conv : Conv := conversionOf identityF identityF []

/-- WithTypeCheck: asserts `isinstance(value, t)` before delegating
`to_json`; `from_json` and `schema` pass through (lines 330-343). -/
def withTypeCheck (t : PyType) (c : Conv) : Conv :=
  { to_json := fun v =>
      if isinstance v t then c.to_json v
      else .error (.assertionError
        ("Value " ++ pyRepr v ++ " is not of type " ++ typeRepr t)),
    from_json := c.from_json,
    schema := c.schema }

/-- WithTypeCheckOnRead: asserts `isinstance(obj, t)` before delegating
`from_json`; `to_json` and `schema` pass through (lines 346-359). -/
def withTypeCheckOnRead (t : PyType) (c : Conv) : Conv :=
  { to_json := c.to_json,
    from_json := fun j =>
      if isinstance j t then c.from_json j
      else .error (.assertionError
        ("Value " ++ pyRepr j ++ " is not of type " ++ typeRepr t)),
    schema := c.schema }

/-- with_type_check: composes both directions (lines 365-368). -/
def with_type_check (onDump : PyType) (onRead : PyType) (c : Conv) : Conv :=
  withTypeCheckOnRead onRead (withTypeCheck onDump c)

/-- string_conv (lines 380-384). -/
def string_conv : Conv :=
  with_type_check .tstr .tstr
    (conversionOf identityF identityF [("type", .vstr "string")])

/-- float_conv (lines 386-390). -/
def float_conv : Conv :=
  with_type_check .tfloat .tfloat
    (conversionOf identityF identityF [("type", .vstr "number")])

/-- int_conv (lines 392-396). -/
def int_conv : Conv :=
  with_type_check .tint .tint
    (conversionOf identityF identityF [("type", .vstr "integer")])

/-- bool_conv (lines 398-402). -/
def bool_conv : Conv :=
  with_type_check .tbool .tbool
    (conversionOf identityF identityF [("type", .vstr "boolean")])

/-- OptionalConv.schema (lines 285-292): take the inner schema; when it has a
`type` key, coerce that type to a list (when not already one) and append
`"null"`; otherwise return the schema unmodified. -/
def optionalSchema (s : List (String × Val)) : List (String × Val) :=
  match lookupS s "type" with
  | none => s
  | some (.vlist l) => insertS s "type" (.vlist (l ++ [.vstr "null"]))
  | some t => insertS s "type" (.vlist [t, .vstr "null"])

/-- OptionalConv (lines 271-292): maps Python `None` to JSON null and back,
delegating to the inner conversion on every other value. -/
def optionalConv (c : Conv) : Conv :=
  { to_json := fun v =>
      match v with
      | .vnone => .ok .vnone
      | _ => c.to_json v,
    from_json := fun j =>
      match j with
      | .vnone => .ok .vnone
      | _ => c.from_json j,
    schema := optionalSchema c.schema }

/-- Element-wise `to_json` of `ListConversion` (no index wrapping: unlike the
`Arr` compound, `ListConversion` adds no path segments). -/
def listMapTo (c : Conv) : List Val → Except PyErr (List Val)
  | [] => .ok []
  | v :: rest =>
    match c.to_json v with
    | .error e => .error e
    | .ok j =>
      match listMapTo c rest with
      | .ok out => .ok (j :: out)
      | .error e => .error e

/-- Element-wise `from_json` of `ListConversion`. -/
def listMapFrom (c : Conv) : List Val → Except PyErr (List Val)
  | [] => .ok []
  | v :: rest =>
    match c.from_json v with
    | .error e => .error e
    | .ok w =>
      match listMapFrom c rest with
      | .ok out => .ok (w :: out)
      | .error e => .error e

/-- ListConversion (lines 405-418): asserts the value is a list, then maps
element-wise through the inner conversion. -/
def listConversion (c : Conv) : Conv :=
  { to_json := fun v =>
      match v with
      | .vlist xs =>
        match listMapTo c xs with
        | .ok out => .ok (.vlist out)
        | .error e => .error e
      | _ => .error (.assertionError (pyRepr v ++ " is not a list")),
    from_json := fun j =>
      match j with
      | .vlist xs =>
        match listMapFrom c xs with
        | .ok out => .ok (.vlist out)
        | .error e => .error e
      | _ => .error (.assertionError (pyRepr j ++ " is not a list")),
    schema := [("type", .vstr "array"), ("items", .vdict c.schema)] }

/-- WithSchema (lines 464-476): replaces only the reported schema. -/
def withSchema (c : Conv) (schema : List (String × Val)) : Conv :=
  { to_json := c.to_json, from_json := c.from_json, schema := schema }

/-- One iteration of the `Obj.as_json` field loop (lines 117-128): resolve the
field's conversion in `_conversion` (a missing entry raises `KeyError`,
caught below like any other failure); a `Miss()` value is omitted entirely, a
`Jst(v)` value emits `to_json(v)`, any other value emits `to_json(item)`.  A
failure that already carries a path is re-raised with `name.` prefixed; any
other failure is replaced by a fresh `NvelopeError(name)` with the original
kept as the chained cause. -/
def objToField (conv : List (String × Conv)) (name : String) (item : Val) :
    Except PyErr (Option (String × Val)) :=
  let body : Except PyErr (Option (String × Val)) :=
    match lookupS conv name with
    | none => .error (.keyError name)
    | some c =>
      match item with
      | .vjst w =>
        match c.to_json w with
        | .ok j => .ok (some (name, j))
        | .error e => .error e
      | .vmiss => .ok none
      | _ =>
        match c.to_json item with
        | .ok j => .ok (some (name, j))
        | .error e => .error e
  match body with
  | .ok r => .ok r
  | .error (.nvelopeError p a q) =>
      .error (.nvelopeError (name ++ "." ++ p) [] (some (.nvelopeError p a q)))
  | .error e => .error (.nvelopeError name [] (some e))

/-- The `Obj.as_json` field loop over `asdict(self)` (lines 116-129).
Dataclass field names are unique, so the successive `obj[name] = ...` dict
inserts append in field order. -/
def objAsJsonLoop (conv : List (String × Conv)) :
    List (String × Val) → Except PyErr (List (String × Val))
  | [] => .ok []
  | (name, item) :: rest =>
    match objToField conv name item with
    | .error e => .error e
    | .ok none => objAsJsonLoop conv rest
    | .ok (some kv) =>
      match objAsJsonLoop conv rest with
      | .ok out => .ok (kv :: out)
      | .error e => .error e

/-- Obj.as_json (lines 115-129): serialize a record instance (given its
class's `_conversion` dict and the instance's `asdict` field list). -/
def Obj.as_json (conv : List (String × Conv)) (inst : List (String × Val)) :
    Except PyErr Val :=
  match objAsJsonLoop conv inst with
  | .ok out => .ok (.vdict out)
  | .error e => .error e

/-- A record model type: class name, declared fields in declaration order
(each with its `MaybeMissing[...]` annotation flag), and the `_conversion`
dict in insertion order. -/
structure ObjDesc where
  name : String
  fields : List (String × Bool)
  conv : List (String × Conv)

/-- One iteration of the `Obj.from_json` field loop (lines 136-149): resolve
the conversion; for a `MaybeMissing` field the key's presence selects
`Jst(conv.from_json(parsed[name]))` or `Miss()`; otherwise the key is
required and a missing key raises `KeyError`.  Failures are wrapped exactly
as in `objToField`. -/
def objFromField (conv : List (String × Conv)) (parsed : List (String × Val))
    (fld : String × Bool) : Except PyErr (String × Val) :=
  let body : Except PyErr (String × Val) :=
    match lookupS conv fld.1 with
    | none => .error (.keyError fld.1)
    | some c =>
      if fld.2 then
        match lookupS parsed fld.1 with
        | some u =>
          match c.from_json u with
          | .ok w => .ok (fld.1, .vjst w)
          | .error e => .error e
        | none => .ok (fld.1, .vmiss)
      else
        match lookupS parsed fld.1 with
        | some u =>
          match c.from_json u with
          | .ok w => .ok (fld.1, w)
          | .error e => .error e
        | none => .error (.keyError fld.1)
  match body with
  | .ok r => .ok r
  | .error (.nvelopeError p a q) =>
      .error (.nvelopeError (fld.1 ++ "." ++ p) [] (some (.nvelopeError p a q)))
  | .error e => .error (.nvelopeError fld.1 [] (some e))

/-- The `Obj.from_json` field loop over `fields(cls)` (lines 134-149),
building the constructor kwargs in field order. -/
def objFromJsonLoop (conv : List (String × Conv)) (parsed : List (String × Val)) :
    List (String × Bool) → Except PyErr (List (String × Val))
  | [] => .ok []
  | f :: fs =>
    match objFromField conv parsed f with
    | .error e => .error e
    | .ok kv =>
      match objFromJsonLoop conv parsed fs with
      | .ok rest => .ok (kv :: rest)
      | .error e => .error e

/-- Obj.from_json (lines 131-150): requires a dict-shaped input, converts
each declared field, and constructs the instance. -/
def Obj.from_json (d : ObjDesc) (parsed : Val) : Except PyErr Val :=
  match parsed with
  | .vdict kvs =>
    match objFromJsonLoop d.conv kvs d.fields with
    | .ok flds => .ok (.vobj d.name flds)
    | .error e => .error e
  | _ => .error (.assertionError (pyRepr parsed ++ " Is not a dict"))

/-- Obj.schema (lines 152-160): `properties` iterates the `_conversion` dict,
`required` lists the declared fields not annotated `MaybeMissing[...]`. -/
def Obj.schema (d : ObjDesc) : List (String × Val) :=
  [("type", .vstr "object"),
   ("properties", .vdict (d.conv.map (fun nc => (nc.1, .vdict nc.2.schema)))),
   ("required", .vlist ((d.fields.filter (fun f => !f.2)).map (fun f => .vstr f.1)))]

/-- The `Arr.as_json` element loop (lines 184-191), carrying the running
index for the `<i>` path segments. -/
def arrAsJsonLoop (c : Conv) : Nat → List Val → Except PyErr (List Val)
  | _, [] => .ok []
  | i, v :: rest =>
    match c.to_json v with
    | .ok j =>
      match arrAsJsonLoop c (i + 1) rest with
      | .ok out => .ok (j :: out)
      | .error e => .error e
    | .error (.nvelopeError p a q) =>
        .error (.nvelopeError ("<" ++ toString i ++ ">." ++ p) []
          (some (.nvelopeError p a q)))
    | .error e => .error (.nvelopeError ("<" ++ toString i ++ ">") [] (some e))

/-- Arr.as_json (lines 182-191). -/
def Arr.as_json (c : Conv) (items : List Val) : Except PyErr Val :=
  match arrAsJsonLoop c 0 items with
  | .ok out => .ok (.vlist out)
  | .error e => .error e

/-- The `Arr.from_json` element loop (lines 196-203). -/
def arrFromJsonLoop (c : Conv) : Nat → List Val → Except PyErr (List Val)
  | _, [] => .ok []
  | i, v :: rest =>
    match c.from_json v with
    | .ok w =>
      match arrFromJsonLoop c (i + 1) rest with
      | .ok out => .ok (w :: out)
      | .error e => .error e
    | .error (.nvelopeError p a q) =>
        .error (.nvelopeError ("<" ++ toString i ++ ">." ++ p) []
          (some (.nvelopeError p a q)))
    | .error e => .error (.nvelopeError ("<" ++ toString i ++ ">") [] (some e))

/-- Arr.from_json (lines 193-204): requires a list-shaped input and
constructs the sequence instance. -/
def Arr.from_json (cls : String) (c : Conv) (parsed : Val) : Except PyErr Val :=
  match parsed with
  | .vlist xs =>
    match arrFromJsonLoop c 0 xs with
    | .ok items => .ok (.varr cls items)
    | .error e => .error e
  | _ => .error (.assertionError (pyRepr parsed ++ " is not a list"))

/-- Arr.schema (lines 206-208). -/
def Arr.schema (c : Conv) : List (String × Val) :=
  [("type", .vstr "array"), ("items", .vdict c.schema)]

/-- ObjWithAliases._true_name (lines 256-258): the external wire key of a
field, defaulting to the field name itself. -/
def trueName (aliasToActual : List (String × String)) (name : String) : String :=
  match lookupS aliasToActual name with
  | some t => t
  | none => name

/-- ObjWithAliases.schema (lines 260-268): a dict literal starting from
`"type": "object"` and splatting `true_name(name): item.schema()` for each
conversion entry (note: no `properties` and no `required` key). -/
def ObjWithAliases.schema (aliasToActual : List (String × String))
    (conv : List (String × Conv)) : List (String × Val) :=
  conv.foldl
    (fun acc nc => insertS acc (trueName aliasToActual nc.1) (.vdict nc.2.schema))
    [("type", .vstr "object")]

/-- A Compound model type: a record (`Obj` subtype) or a sequence (`Arr`
subtype, given its class name and item conversion). -/
inductive CompoundType where
  | obj (d : ObjDesc) : CompoundType
  | arr (cls : String) (conversion : Conv) : CompoundType

/-- CompoundConv (lines 295-306): lets a `Conversion` slot hold a compound
model type, forwarding to the type's own `as_json`/`from_json`/`schema`.
Calling `as_json` on a value that is not an instance of the right shape
fails in Python with a `TypeError` from the reflection machinery. -/
def compoundConv : CompoundType → Conv
  | .obj d =>
    { to_json := fun v =>
        match v with
        | .vobj _ inst => Obj.as_json d.conv inst
        | _ => .error (.typeError "not a dataclass instance"),
      from_json := Obj.from_json d,
      schema := Obj.schema d }
  | .arr cls c =>
    { to_json := fun v =>
        match v with
        | .varr _ items => Arr.as_json c items
        | _ => .error (.typeError "not an Arr instance"),
      from_json := Arr.from_json cls c,
      schema := Arr.schema c }

/-- Modelled from the spec: the definition-time validator for record types is
not present under src/ (spec section 4.6 describes it; only the spec states
it).  For a record type it asserts a field-to-conversion map exists and that
the declared field-name set equals the conversion-map key set, raising a
configuration error enumerating the fields missing a conversion and the
conversion-map keys with no matching field. -/
def objDefinitionCheck (fieldNames : List String) (convKeys : Option (List String)) :
    Except PyErr Unit :=
  match convKeys with
  | none => .error (.configError "conversion map is not set" [] [])
  | some ks =>
    match fieldNames.filter (fun n => !elemS n ks), ks.filter (fun k => !elemS k fieldNames) with
    | [], [] => .ok ()
    | missing, extra =>
        .error (.configError "field set does not match conversion keys" missing extra)

/-- Modelled from the spec: the definition-time validator for sequence types
is not present under src/ (spec section 4.6).  It asserts an item conversion
is declared. -/
def arrDefinitionCheck (itemConv : Option Conv) : Except PyErr Unit :=
  match itemConv with
  | none => .error (.configError "item conversion is not set" [] [])
  | some _ => .ok ()

/-- Python `isinstance(item, MaybeMissing)`: true exactly for the `Jst` and
`Miss` runtime values. -/
def isMM : Val → Bool
  | .vjst _ => true
  | .vmiss => true
  | _ => false

/-- A conversion round-trips on a value: `from_json(to_json(v))` succeeds
and returns `v` itself.  This is the spec's "valid value" for a field or
item slot. -/
def RoundTrips (c : Conv) (v : Val) : Prop :=
  (c.to_json v).bind c.from_json = .ok v

/-- A record instance entry is well-formed for its declared field: the names
agree, the field has a conversion, a `MaybeMissing[...]`-annotated field
holds `Miss()` or a `Jst` of a round-tripping value, and a plain field holds
a round-tripping value that is not a `MaybeMissing` wrapper. -/
def FieldOk (conv : List (String × Conv)) (fld : String × Bool)
    (entry : String × Val) : Prop :=
  fld.1 = entry.1 ∧
  match lookupS conv fld.1 with
  | none => False
  | some c =>
    if fld.2 then
      match entry.2 with
      | .vmiss => True
      | .vjst w => RoundTrips c w
      | _ => False
    else isMM entry.2 = false ∧ RoundTrips c entry.2

/-- Pointwise well-formedness of an instance's field list against the
declared fields. -/
def ValidFields (conv : List (String × Conv)) :
    List (String × Bool) → List (String × Val) → Prop
  | [], [] => True
  | f :: fs, e :: es => FieldOk conv f e ∧ ValidFields conv fs es
  | _, _ => False

/-- An instance of a record model type built purely from declared fields
with valid values (the dataclass machinery guarantees the unique field
names). -/
def ValidInst (d : ObjDesc) (inst : List (String × Val)) : Prop :=
  nodupS (d.fields.map Prod.fst) = true ∧ ValidFields d.conv d.fields inst

/-- Every item of a sequence instance round-trips through the item
conversion. -/
def ItemsOk (c : Conv) : List Val → Prop
  | [] => True
  | v :: vs => RoundTrips c v ∧ ItemsOk c vs

/-- The input object restricted to the given key set, in order (used to
state that undeclared keys are ignored by `Obj.from_json`). -/
def restrictKeys : List (String × Val) → List String → List (String × Val)
  | [], _ => []
  | kv :: rest, names =>
      if elemS kv.1 names then kv :: restrictKeys rest names
      else restrictKeys rest names

/-- The `User` record type of the repository's test-suite (tests/test_nvelope.py). -/
def UserDesc : ObjDesc :=
  { name := "User",
    fields := [("id", false), ("language_code", false), ("username", false)],
    conv := [("id", int_conv), ("language_code", string_conv), ("username", string_conv)] }

/-- A record type exercising every field shape at once: a `MaybeMissing`
field holding `Miss()`, a `MaybeMissing` field holding `Jst(...)`, a plain
scalar field, and a plain nested-compound field. -/
def MixedDesc : ObjDesc :=
  { name := "Mixed",
    fields := [("opt", true), ("txt", true), ("num", false), ("user", false)],
    conv := [("opt", int_conv), ("txt", string_conv), ("num", int_conv),
             ("user", compoundConv (.obj UserDesc))] }

/-- A valid `Mixed` instance. -/
def mixedInst : List (String × Val) :=
  [("opt", .vmiss), ("txt", .vjst (.vstr "foo")), ("num", .vint 5),
   ("user", .vobj "User"
      [("id", .vint 530716123), ("language_code", .vstr "en"),
       ("username", .vstr "joe")])]

/-- The `Bar` record of the error-path test (tests/test_nvelope.py::test_raises). -/
def BarDesc : ObjDesc :=
  { name := "Bar", fields := [("xyz", false)], conv := [("xyz", int_conv)] }

/-- The `Inner` record of the error-path test: a string field and an
`Arr`-of-`Bar` field. -/
def InnerDesc : ObjDesc :=
  { name := "Inner",
    fields := [("inner_field", false), ("arr_field", false)],
    conv := [("inner_field", string_conv),
             ("arr_field", compoundConv (.arr "ArrInner" (compoundConv (.obj BarDesc))))] }

/-- The `Dummy` record of the error-path test: a single `Inner` field. -/
def DummyDesc : ObjDesc :=
  { name := "Dummy", fields := [("foo", false)],
    conv := [("foo", compoundConv (.obj InnerDesc))] }

/-! ### Helper lemmas about the association-list dictionary model -/

/-- elemS decides list membership. -/
theorem elemS_eq_true_iff {k : String} : ∀ {ns : List String}, elemS k ns = true ↔ k ∈ ns
  | [] => by simp [elemS]
  | n :: ns => by
      by_cases h : n = k
      · subst h; simp [elemS]
      · simp [elemS, h, @elemS_eq_true_iff k ns, Ne.symm h]

/-- A successful lookup means the key occurs in the list. -/
theorem lookupS_isSome_mem {α : Type} {kvs : List (String × α)} {k : String} :
    ∀ {v : α}, lookupS kvs k = some v → k ∈ kvs.map Prod.fst := by
  induction kvs with
  | nil => intro v h; exact absurd h (by simp [lookupS])
  | cons kv rest ih =>
      intro v h
      rw [lookupS] at h
      by_cases hk : kv.1 = k
      · simp [hk]
      · rw [if_neg hk] at h; exact List.mem_cons_of_mem _ (ih h)

/-- Lookup skips a head entry with a different key. -/
theorem lookupS_cons_ne {α : Type} (n : String) (j : α) (kvs : List (String × α))
    {k : String} (h : k ≠ n) : lookupS ((n, j) :: kvs) k = lookupS kvs k := by
  rw [lookupS, if_neg (fun hh => h hh.symm)]

/-! ### Computation lemmas for the record field steps -/

/-- Serializing a present `Jst` field emits the converted inner value. -/
theorem objToField_jst_ok {conv : List (String × Conv)} {n : String} {c : Conv}
    {w j : Val} (hc : lookupS conv n = some c) (hj : c.to_json w = .ok j) :
    objToField conv n (.vjst w) = .ok (some (n, j)) := by
  simp [objToField, hc, hj]

/-- Serializing a `Miss()` field emits nothing. -/
theorem objToField_miss {conv : List (String × Conv)} {n : String} {c : Conv}
    (hc : lookupS conv n = some c) : objToField conv n .vmiss = .ok none := by
  simp [objToField, hc]

/-- Serializing a plain (non-`MaybeMissing`) field value emits its
conversion. -/
theorem objToField_plain_ok {conv : List (String × Conv)} {n : String} {c : Conv}
    {v j : Val} (hc : lookupS conv n = some c) (hv : isMM v = false)
    (hj : c.to_json v = .ok j) :
    objToField conv n v = .ok (some (n, j)) := by
  cases v <;> simp_all [objToField, isMM]

/-- Parsing a field whose key is present converts the bound value, wrapping
it in `Jst` exactly when the field is `MaybeMissing`-annotated. -/
theorem objFromField_found_ok {conv : List (String × Conv)}
    {parsed : List (String × Val)} {n : String} {mm : Bool} {c : Conv} {u w : Val}
    (hc : lookupS conv n = some c) (hu : lookupS parsed n = some u)
    (hw : c.from_json u = .ok w) :
    objFromField conv parsed (n, mm) = .ok (n, if mm then .vjst w else w) := by
  cases mm <;> simp [objFromField, hc, hu, hw]

/-- Parsing a `MaybeMissing` field whose key is absent yields `Miss()`. -/
theorem objFromField_absent_mm {conv : List (String × Conv)}
    {parsed : List (String × Val)} {n : String} {c : Conv}
    (hc : lookupS conv n = some c) (hu : lookupS parsed n = none) :
    objFromField conv parsed (n, true) = .ok (n, .vmiss) := by
  simp [objFromField, hc, hu]

/-- The field parse step reads the input object only at the field's own
key. -/
theorem objFromField_congr {conv : List (String × Conv)}
    {p1 p2 : List (String × Val)} {fld : String × Bool}
    (h : lookupS p1 fld.1 = lookupS p2 fld.1) :
    objFromField conv p1 fld = objFromField conv p2 fld := by
  simp [objFromField, h]

/-- The field-parse loop ignores a leading input entry whose key is not one
of the fields being parsed. -/
theorem objFromJsonLoop_skip {conv : List (String × Conv)} {n : String} {j : Val}
    {parsed : List (String × Val)} :
    ∀ {flds : List (String × Bool)}, elemS n (flds.map Prod.fst) = false →
      objFromJsonLoop conv ((n, j) :: parsed) flds = objFromJsonLoop conv parsed flds := by
  intro flds
  induction flds with
  | nil => intro _; rfl
  | cons f fs ih =>
      intro h
      rw [List.map_cons, elemS] at h
      by_cases hf : f.1 = n
      · rw [if_pos hf] at h; exact absurd h (by simp)
      · rw [if_neg hf] at h
        rw [objFromJsonLoop, objFromJsonLoop,
          objFromField_congr (lookupS_cons_ne n j parsed hf), ih h]

/-- A round-tripping value has a successful serialization that parses back
to it. -/
theorem roundTrips_elim {c : Conv} {v : Val} (h : RoundTrips c v) :
    ∃ j, c.to_json v = .ok j ∧ c.from_json j = .ok v := by
  rw [RoundTrips] at h
  cases hj : c.to_json v with
  | ok j => rw [hj] at h; exact ⟨j, rfl, h⟩
  | error e => rw [hj] at h; exact absurd h (by simp [Except.bind])

/-- Round-trip of the record field loops: a valid instance serializes
without error, the emitted keys are declared field names, and parsing the
emitted object recovers exactly the instance's field list. -/
theorem obj_roundtrip_loop (conv : List (String × Conv)) :
    ∀ (flds : List (String × Bool)) (inst : List (String × Val)),
      nodupS (flds.map Prod.fst) = true →
      ValidFields conv flds inst →
      ∃ out, objAsJsonLoop conv inst = .ok out ∧
        (∀ m, m ∈ out.map Prod.fst → elemS m (flds.map Prod.fst) = true) ∧
        objFromJsonLoop conv out flds = .ok inst := by
  intro flds
  induction flds with
  | nil =>
      intro inst _ hv
      cases inst with
      | nil => exact ⟨[], rfl, by simp, rfl⟩
      | cons e es => simp [ValidFields] at hv
  | cons f fs ih =>
      intro inst hnd hv
      cases inst with
      | nil => simp [ValidFields] at hv
      | cons e es =>
        obtain ⟨hok, hvrest⟩ := hv
        obtain ⟨n, mm⟩ := f
        obtain ⟨n', v⟩ := e
        have hn : n = n' := hok.1
        subst hn
        have hok2 := hok.2
        rw [List.map_cons] at hnd
        simp only [nodupS, Bool.and_eq_true, Bool.not_eq_true'] at hnd
        obtain ⟨hn1, hn2⟩ := hnd
        obtain ⟨out, hout, hsub, hfrom⟩ := ih es hn2 hvrest
        cases hc : lookupS conv n with
        | none => rw [hc] at hok2; exact False.elim hok2
        | some c =>
          rw [hc] at hok2
          cases mm with
          | false =>
            obtain ⟨hmm, hrt⟩ := hok2
            obtain ⟨j, hj, hback⟩ := roundTrips_elim hrt
            refine ⟨(n, j) :: out, ?_, ?_, ?_⟩
            · simp [objAsJsonLoop, objToField_plain_ok hc hmm hj, hout]
            · intro m hm
              rw [List.map_cons, elemS]
              rcases List.mem_cons.mp hm with hm1 | hm2
              · rw [if_pos hm1.symm]
              · by_cases hnm : n = m
                · rw [if_pos hnm]
                · rw [if_neg hnm]; exact hsub m hm2
            · have hhd : lookupS ((n, j) :: out) n = some j := by
                rw [lookupS, if_pos rfl]
              rw [objFromJsonLoop, objFromField_found_ok hc hhd hback,
                objFromJsonLoop_skip hn1, hfrom]
              rfl
          | true =>
            have hcase : v = .vmiss ∨ ∃ w, v = .vjst w ∧ RoundTrips c w := by
              cases v
              case vmiss => exact .inl rfl
              case vjst w => exact .inr ⟨w, rfl, hok2⟩
              all_goals exact False.elim hok2
            rcases hcase with hvm | ⟨w, hvw, hrt⟩
            · subst hvm
              refine ⟨out, ?_, ?_, ?_⟩
              · simp [objAsJsonLoop, objToField_miss hc, hout]
              · intro m hm
                rw [List.map_cons, elemS]
                by_cases hnm : n = m
                · rw [if_pos hnm]
                · rw [if_neg hnm]; exact hsub m hm
              · have hnone : lookupS out n = none := by
                  cases hlk : lookupS out n with
                  | none => rfl
                  | some u =>
                      have := hsub n (lookupS_isSome_mem hlk)
                      rw [this] at hn1; exact absurd hn1 (by simp)
                rw [objFromJsonLoop, objFromField_absent_mm hc hnone, hfrom]
            · subst hvw
              obtain ⟨j, hj, hback⟩ := roundTrips_elim hrt
              refine ⟨(n, j) :: out, ?_, ?_, ?_⟩
              · simp [objAsJsonLoop, objToField_jst_ok hc hj, hout]
              · intro m hm
                rw [List.map_cons, elemS]
                rcases List.mem_cons.mp hm with hm1 | hm2
                · rw [if_pos hm1.symm]
                · by_cases hnm : n = m
                  · rw [if_pos hnm]
                  · rw [if_neg hnm]; exact hsub m hm2
              · have hhd : lookupS ((n, j) :: out) n = some j := by
                  rw [lookupS, if_pos rfl]
                rw [objFromJsonLoop, objFromField_found_ok hc hhd hback,
                  objFromJsonLoop_skip hn1, hfrom]
                rfl

/-- Round-trip of the sequence element loops, at any starting index. -/
theorem arr_roundtrip_loop (c : Conv) :
    ∀ (items : List Val) (i : Nat), ItemsOk c items →
      ∃ js, arrAsJsonLoop c i items = .ok js ∧ arrFromJsonLoop c i js = .ok items := by
  intro items
  induction items with
  | nil => intro i _; exact ⟨[], rfl, rfl⟩
  | cons v vs ih =>
      intro i hok
      obtain ⟨hrt, hrest⟩ := hok
      obtain ⟨j, hj, hback⟩ := roundTrips_elim hrt
      obtain ⟨js, hjs, hfrom⟩ := ih (i + 1) hrest
      refine ⟨j :: js, ?_, ?_⟩
      · rw [arrAsJsonLoop, hj, hjs]
      · rw [arrFromJsonLoop, hback, hfrom]

/-- C1: for every record model type whose instance is built purely from
declared fields with valid (round-tripping) values, and for every sequence
model type whose items are valid, parsing the serialized form gives back an
equal value: `from_json(as_json(x)) = x`. -/
theorem roundtrip_spec :
    (∀ (d : ObjDesc) (inst : List (String × Val)), ValidInst d inst →
      (Obj.as_json d.conv inst).bind (Obj.from_json d) = .ok (.vobj d.name inst)) ∧
    (∀ (cls : String) (c : Conv) (items : List Val), ItemsOk c items →
      (Arr.as_json c items).bind (Arr.from_json cls c) = .ok (.varr cls items)) := by
  constructor
  · intro d inst hv
    obtain ⟨hnd, hvf⟩ := hv
    obtain ⟨out, hout, _, hfrom⟩ := obj_roundtrip_loop d.conv d.fields inst hnd hvf
    simp [Obj.as_json, hout, Except.bind, Obj.from_json, hfrom]
  · intro cls c items hok
    obtain ⟨js, hjs, hfrom⟩ := arr_roundtrip_loop c items 0 hok
    simp [Arr.as_json, hjs, Except.bind, Arr.from_json, hfrom]

/-- Witness for C1: a record instance exercising `Miss()`, `Jst(...)`, a
plain scalar field and a nested compound field round-trips, as does an
integer sequence. -/
theorem roundtrip_spec_witness :
    (Obj.as_json MixedDesc.conv mixedInst).bind (Obj.from_json MixedDesc) =
      .ok (.vobj "Mixed" mixedInst) ∧
    (Arr.as_json int_conv [.vint 1, .vint 2]).bind (Arr.from_json "Nums" int_conv) =
      .ok (.varr "Nums" [.vint 1, .vint 2]) :=
  ⟨roundtrip_spec.1 MixedDesc mixedInst
      ⟨rfl, ⟨rfl, trivial⟩, ⟨rfl, rfl⟩, ⟨rfl, rfl, rfl⟩, ⟨rfl, rfl, rfl⟩, trivial⟩,
   roundtrip_spec.2 "Nums" int_conv [.vint 1, .vint 2] ⟨rfl, rfl, trivial⟩⟩

/-- C2: for every record type with a `MaybeMissing`-typed field, a `Miss()`
value serializes to no key at all, a `Jst(v)` value serializes the key to
`inner.to_json(v)`, parsing an object lacking the key yields `Miss()`, and
parsing one containing the key yields `Jst(inner.from_json(value))`. -/
theorem maybe_missing_spec :
    (∀ (conv : List (String × Conv)) (name : String) (c : Conv),
      lookupS conv name = some c → objToField conv name .vmiss = .ok none) ∧
    (∀ (conv : List (String × Conv)) (name : String) (c : Conv) (v j : Val),
      lookupS conv name = some c → c.to_json v = .ok j →
      objToField conv name (.vjst v) = .ok (some (name, j))) ∧
    (∀ (conv : List (String × Conv)) (parsed : List (String × Val)) (name : String)
      (c : Conv), lookupS conv name = some c → lookupS parsed name = none →
      objFromField conv parsed (name, true) = .ok (name, .vmiss)) ∧
    (∀ (conv : List (String × Conv)) (parsed : List (String × Val)) (name : String)
      (c : Conv) (u w : Val), lookupS conv name = some c →
      lookupS parsed name = some u → c.from_json u = .ok w →
      objFromField conv parsed (name, true) = .ok (name, .vjst w)) := by
  refine ⟨?_, ?_, ?_, ?_⟩
  · intro conv name c hc; exact objToField_miss hc
  · intro conv name c v j hc hj; exact objToField_jst_ok hc hj
  · intro conv parsed name c hc hu; exact objFromField_absent_mm hc hu
  · intro conv parsed name c u w hc hu hw
    simp [objFromField, hc, hu, hw]

/-- Witness for C2 at a one-field record type. -/
theorem maybe_missing_spec_witness :
    objToField [("a", int_conv)] "a" .vmiss = .ok none ∧
    objToField [("a", int_conv)] "a" (.vjst (.vint 7)) = .ok (some ("a", .vint 7)) ∧
    objFromField [("a", int_conv)] [] ("a", true) = .ok ("a", .vmiss) ∧
    objFromField [("a", int_conv)] [("a", .vint 7)] ("a", true) = .ok ("a", .vjst (.vint 7)) :=
  ⟨maybe_missing_spec.1 [("a", int_conv)] "a" int_conv rfl,
   maybe_missing_spec.2.1 [("a", int_conv)] "a" int_conv (.vint 7) (.vint 7) rfl rfl,
   maybe_missing_spec.2.2.1 [("a", int_conv)] [] "a" int_conv rfl rfl,
   maybe_missing_spec.2.2.2 [("a", int_conv)] [("a", .vint 7)] "a" int_conv
     (.vint 7) (.vint 7) rfl rfl rfl⟩

/-- C7: a record field not wrapped in `MaybeMissing` whose external key is
absent from the input fails with a path-only failure: the path is exactly
the field name, there are no detail args, and the underlying `KeyError` is
kept only as the chained cause. -/
theorem missing_required_spec :
    (∀ (conv : List (String × Conv)) (parsed : List (String × Val)) (name : String)
      (c : Conv), lookupS conv name = some c → lookupS parsed name = none →
      objFromField conv parsed (name, false) =
        .error (.nvelopeError name [] (some (.keyError name)))) ∧
    (∀ (conv : List (String × Conv)) (parsed : List (String × Val)) (name : String)
      (c : Conv) (fs : List (String × Bool)),
      lookupS conv name = some c → lookupS parsed name = none →
      objFromJsonLoop conv parsed ((name, false) :: fs) =
        .error (.nvelopeError name [] (some (.keyError name)))) ∧
    (∀ (d : ObjDesc) (kvs : List (String × Val)) (name : String) (c : Conv)
      (fs : List (String × Bool)), d.fields = (name, false) :: fs →
      lookupS d.conv name = some c → lookupS kvs name = none →
      Obj.from_json d (.vdict kvs) =
        .error (.nvelopeError name [] (some (.keyError name)))) := by
  have h1 : ∀ (conv : List (String × Conv)) (parsed : List (String × Val))
      (name : String) (c : Conv), lookupS conv name = some c → lookupS parsed name = none →
      objFromField conv parsed (name, false) =
        .error (.nvelopeError name [] (some (.keyError name))) := by
    intro conv parsed name c hc hu
    simp [objFromField, hc, hu]
  have h2 : ∀ (conv : List (String × Conv)) (parsed : List (String × Val))
      (name : String) (c : Conv) (fs : List (String × Bool)),
      lookupS conv name = some c → lookupS parsed name = none →
      objFromJsonLoop conv parsed ((name, false) :: fs) =
        .error (.nvelopeError name [] (some (.keyError name))) := by
    intro conv parsed name c fs hc hu
    rw [objFromJsonLoop, h1 conv parsed name c hc hu]
  refine ⟨h1, h2, ?_⟩
  intro d kvs name c fs hf hc hu
  simp [Obj.from_json, hf, h2 d.conv kvs name c fs hc hu]

/-- Witness for C7: parsing `{}` as a `Bar` record fails at path `xyz`. -/
theorem missing_required_spec_witness :
    Obj.from_json BarDesc (.vdict []) =
      .error (.nvelopeError "xyz" [] (some (.keyError "xyz"))) :=
  missing_required_spec.2.2 BarDesc [] "xyz" int_conv [] rfl rfl rfl

/-- C4: uniform error-path composition.  A failure while converting a record
field or a sequence element is re-wrapped: a failure already carrying a path
gets the segment (`name` or `<i>`) prefixed with a `.`; any other failure is
replaced by a fresh path-carrying failure whose path is exactly the segment,
with empty detail args (message discarded) and the original kept as the
chained cause.  The string form is `Path: '<path>'` plus any detail args
joined by commas. -/
theorem error_path_spec :
    (∀ (conv : List (String × Conv)) (name : String) (c : Conv) (v : Val) (e : PyErr),
      lookupS conv name = some c → isMM v = false → c.to_json v = .error e →
      objToField conv name v = .error (.nvelopeError
        (match e with | .nvelopeError p _ _ => name ++ "." ++ p | _ => name)
        [] (some e))) ∧
    (∀ (conv : List (String × Conv)) (name : String) (c : Conv) (w : Val) (e : PyErr),
      lookupS conv name = some c → c.to_json w = .error e →
      objToField conv name (.vjst w) = .error (.nvelopeError
        (match e with | .nvelopeError p _ _ => name ++ "." ++ p | _ => name)
        [] (some e))) ∧
    (∀ (conv : List (String × Conv)) (parsed : List (String × Val)) (name : String)
      (mm : Bool) (c : Conv) (u : Val) (e : PyErr),
      lookupS conv name = some c → lookupS parsed name = some u →
      c.from_json u = .error e →
      objFromField conv parsed (name, mm) = .error (.nvelopeError
        (match e with | .nvelopeError p _ _ => name ++ "." ++ p | _ => name)
        [] (some e))) ∧
    (∀ (c : Conv) (i : Nat) (v : Val) (rest : List Val) (e : PyErr),
      c.to_json v = .error e →
      arrAsJsonLoop c i (v :: rest) = .error (.nvelopeError
        (match e with
         | .nvelopeError p _ _ => "<" ++ toString i ++ ">." ++ p
         | _ => "<" ++ toString i ++ ">") [] (some e))) ∧
    (∀ (c : Conv) (i : Nat) (v : Val) (rest : List Val) (e : PyErr),
      c.from_json v = .error e →
      arrFromJsonLoop c i (v :: rest) = .error (.nvelopeError
        (match e with
         | .nvelopeError p _ _ => "<" ++ toString i ++ ">." ++ p
         | _ => "<" ++ toString i ++ ">") [] (some e))) ∧
    (∀ p : String, nvelopeErrorStr p [] = "Path: " ++ "'" ++ p ++ "'") ∧
    (∀ (p a : String) (args : List String), nvelopeErrorStr p (a :: args) =
      "Path: " ++ "'" ++ p ++ "'" ++ "; " ++ String.intercalate "," (a :: args)) := by
  refine ⟨?_, ?_, ?_, ?_, ?_, ?_, ?_⟩
  · intro conv name c v e hc hv he
    cases v <;> cases e <;> simp_all [objToField, isMM]
  · intro conv name c w e hc he
    cases e <;> simp_all [objToField]
  · intro conv parsed name mm c u e hc hu he
    cases mm <;> cases e <;> simp_all [objFromField]
  · intro c i v rest e he
    cases e <;> simp_all [arrAsJsonLoop]
  · intro c i v rest e he
    cases e <;> simp_all [arrFromJsonLoop]
  · intro p; rfl
  · intro p a args; rfl

/-- Witness for C4: a primitive type-mismatch inside a record field gets the
bare field name as path with the assertion kept as cause; a path-carrying
failure inside a sequence element gets the `<0>.` prefix; and the string
forms render as `Path: '<path>'` with args joined by commas. -/
theorem error_path_spec_witness :
    objToField [("a", int_conv)] "a" (.vstr "x") = .error (.nvelopeError "a" []
      (some (.assertionError "Value 'x' is not of type <class 'int'>"))) ∧
    arrAsJsonLoop
      (conversionOf (fun _ => .error (.nvelopeError "xyz" [] none)) identityF [])
      0 [.vnone] =
      .error (.nvelopeError "<0>.xyz" [] (some (.nvelopeError "xyz" [] none))) ∧
    nvelopeErrorStr "foo.arr_field.<0>.xyz" [] = "Path: 'foo.arr_field.<0>.xyz'" ∧
    nvelopeErrorStr "a" ["bad", "worse"] = "Path: 'a'; bad,worse" :=
  ⟨error_path_spec.1 [("a", int_conv)] "a" int_conv (.vstr "x")
      (.assertionError "Value 'x' is not of type <class 'int'>") rfl rfl rfl,
   error_path_spec.2.2.2.1
      (conversionOf (fun _ => .error (.nvelopeError "xyz" [] none)) identityF [])
      0 .vnone [] (.nvelopeError "xyz" [] none) rfl,
   error_path_spec.2.2.2.2.2.1 "foo.arr_field.<0>.xyz",
   error_path_spec.2.2.2.2.2.2 "a" "bad" ["worse"]⟩

/-- End-to-end check of the nested error path of
tests/test_nvelope.py::test_raises: parsing a `Dummy` whose inner `Bar`
holds a non-integer fails at path `foo.arr_field.<0>.xyz`, rendered as
`Path: 'foo.arr_field.<0>.xyz'`. -/
theorem deep_error_path_check :
    ∃ cause : Option PyErr,
      Obj.from_json DummyDesc (.vdict [("foo", .vdict
        [("inner_field", .vstr "ok"),
         ("arr_field", .vlist [.vdict [("xyz", .vstr "bad val")]])])]) =
        .error (.nvelopeError "foo.arr_field.<0>.xyz" [] cause) ∧
      nvelopeErrorStr "foo.arr_field.<0>.xyz" [] = "Path: 'foo.arr_field.<0>.xyz'" :=
  ⟨_, rfl, rfl⟩

/-- C5: `OptionalConv` maps `None` to null and back; on any other value both
directions delegate to the inner conversion unchanged; the schema appends
`"null"` to the inner `type` (coercing it to a list first) and is returned
unmodified when the inner schema has no `type` key; concretely,
`OptionalConv(string_conv).schema() = {"type": ["string", "null"]}`. -/
theorem optional_conv_spec :
    (∀ c : Conv, (optionalConv c).to_json .vnone = .ok .vnone) ∧
    (∀ c : Conv, (optionalConv c).from_json .vnone = .ok .vnone) ∧
    (∀ (c : Conv) (v : Val), v ≠ .vnone → (optionalConv c).to_json v = c.to_json v) ∧
    (∀ (c : Conv) (j : Val), j ≠ .vnone → (optionalConv c).from_json j = c.from_json j) ∧
    (∀ c : Conv, lookupS c.schema "type" = none → (optionalConv c).schema = c.schema) ∧
    (∀ (c : Conv) (l : List Val), lookupS c.schema "type" = some (.vlist l) →
      (optionalConv c).schema = insertS c.schema "type" (.vlist (l ++ [.vstr "null"]))) ∧
    (∀ (c : Conv) (t : Val), lookupS c.schema "type" = some t →
      isinstance t .tlist = false →
      (optionalConv c).schema = insertS c.schema "type" (.vlist [t, .vstr "null"])) ∧
    (optionalConv string_conv).schema = [("type", .vlist [.vstr "string", .vstr "null"])] := by
  refine ⟨fun c => rfl, fun c => rfl, ?_, ?_, ?_, ?_, ?_, rfl⟩
  · intro c v h
    cases v <;> first | exact absurd rfl h | rfl
  · intro c j h
    cases j <;> first | exact absurd rfl h | rfl
  · intro c h
    show optionalSchema c.schema = c.schema
    simp [optionalSchema, h]
  · intro c l h
    show optionalSchema c.schema = _
    simp [optionalSchema, h]
  · intro c t h ht
    show optionalSchema c.schema = _
    cases t <;> simp_all [optionalSchema, isinstance]

/-- Witness for C5: the optional combinator over `int_conv` delegates on a
non-null value, and the schema cases evaluate at `identity_conv` (no `type`
key) and `string_conv` (scalar `type`). -/
theorem optional_conv_spec_witness :
    (optionalConv int_conv).to_json (.vint 5) = int_conv.to_json (.vint 5) ∧
    (optionalConv int_conv).from_json (.vint 5) = int_conv.from_json (.vint 5) ∧
    (optionalConv identity_conv).schema = identity_conv.schema ∧
    (optionalConv string_conv).schema =
      insertS string_conv.schema "type" (.vlist [.vstr "string", .vstr "null"]) :=
  ⟨optional_conv_spec.2.2.1 int_conv (.vint 5) (fun h => Val.noConfusion h),
   optional_conv_spec.2.2.2.1 int_conv (.vint 5) (fun h => Val.noConfusion h),
   optional_conv_spec.2.2.2.2.1 identity_conv rfl,
   optional_conv_spec.2.2.2.2.2.2.1 string_conv (.vstr "string") rfl rfl⟩

/-- The four primitive conversions share one shape; `to_json` asserts the
dump type and passes the value through unchanged. -/
theorem prim_to_json_eq (t : PyType) (s : List (String × Val)) (v : Val) :
    (with_type_check t t (conversionOf identityF identityF s)).to_json v =
      if isinstance v t then .ok v
      else .error (.assertionError
        ("Value " ++ pyRepr v ++ " is not of type " ++ typeRepr t)) := rfl

/-- The read direction asserts the wire type and passes the value through
unchanged. -/
theorem prim_from_json_eq (t : PyType) (s : List (String × Val)) (v : Val) :
    (with_type_check t t (conversionOf identityF identityF s)).from_json v =
      if isinstance v t then .ok v
      else .error (.assertionError
        ("Value " ++ pyRepr v ++ " is not of type " ++ typeRepr t)) := rfl

/-- A type-checked identity conversion accepts a well-typed value in both
directions. -/
theorem prim_ok (t : PyType) (s : List (String × Val)) (v : Val)
    (h : isinstance v t = true) :
    (with_type_check t t (conversionOf identityF identityF s)).to_json v = .ok v ∧
    (with_type_check t t (conversionOf identityF identityF s)).from_json v = .ok v :=
  ⟨by rw [prim_to_json_eq, if_pos h], by rw [prim_from_json_eq, if_pos h]⟩

/-- A type-checked identity conversion rejects an ill-typed value in both
directions with the type-mismatch assertion message. -/
theorem prim_err (t : PyType) (s : List (String × Val)) (v : Val)
    (h : isinstance v t = false) :
    (with_type_check t t (conversionOf identityF identityF s)).to_json v =
      .error (.assertionError
        ("Value " ++ pyRepr v ++ " is not of type " ++ typeRepr t)) ∧
    (with_type_check t t (conversionOf identityF identityF s)).from_json v =
      .error (.assertionError
        ("Value " ++ pyRepr v ++ " is not of type " ++ typeRepr t)) :=
  ⟨by rw [prim_to_json_eq, if_neg (by simp [h])],
   by rw [prim_from_json_eq, if_neg (by simp [h])]⟩

/-- C6: each primitive conversion is the identity codec guarded by type
assertions: both directions return the input unchanged when it has the
expected Python type, and otherwise raise a type-mismatch error naming the
expected type and the offending value. -/
theorem primitive_conversions_spec :
    (∀ v : Val, isinstance v .tstr = true →
      string_conv.to_json v = .ok v ∧ string_conv.from_json v = .ok v) ∧
    (∀ v : Val, isinstance v .tstr = false →
      string_conv.to_json v = .error (.assertionError
        ("Value " ++ pyRepr v ++ " is not of type " ++ typeRepr .tstr)) ∧
      string_conv.from_json v = .error (.assertionError
        ("Value " ++ pyRepr v ++ " is not of type " ++ typeRepr .tstr))) ∧
    (∀ v : Val, isinstance v .tint = true →
      int_conv.to_json v = .ok v ∧ int_conv.from_json v = .ok v) ∧
    (∀ v : Val, isinstance v .tint = false →
      int_conv.to_json v = .error (.assertionError
        ("Value " ++ pyRepr v ++ " is not of type " ++ typeRepr .tint)) ∧
      int_conv.from_json v = .error (.assertionError
        ("Value " ++ pyRepr v ++ " is not of type " ++ typeRepr .tint))) ∧
    (∀ v : Val, isinstance v .tfloat = true →
      float_conv.to_json v = .ok v ∧ float_conv.from_json v = .ok v) ∧
    (∀ v : Val, isinstance v .tfloat = false →
      float_conv.to_json v = .error (.assertionError
        ("Value " ++ pyRepr v ++ " is not of type " ++ typeRepr .tfloat)) ∧
      float_conv.from_json v = .error (.assertionError
        ("Value " ++ pyRepr v ++ " is not of type " ++ typeRepr .tfloat))) ∧
    (∀ v : Val, isinstance v .tbool = true →
      bool_conv.to_json v = .ok v ∧ bool_conv.from_json v = .ok v) ∧
    (∀ v : Val, isinstance v .tbool = false →
      bool_conv.to_json v = .error (.assertionError
        ("Value " ++ pyRepr v ++ " is not of type " ++ typeRepr .tbool)) ∧
      bool_conv.from_json v = .error (.assertionError
        ("Value " ++ pyRepr v ++ " is not of type " ++ typeRepr .tbool))) := by
  refine ⟨?_, ?_, ?_, ?_, ?_, ?_, ?_, ?_⟩
  · intro v h; exact prim_ok .tstr [("type", .vstr "string")] v h
  · intro v h; exact prim_err .tstr [("type", .vstr "string")] v h
  · intro v h; exact prim_ok .tint [("type", .vstr "integer")] v h
  · intro v h; exact prim_err .tint [("type", .vstr "integer")] v h
  · intro v h; exact prim_ok .tfloat [("type", .vstr "number")] v h
  · intro v h; exact prim_err .tfloat [("type", .vstr "number")] v h
  · intro v h; exact prim_ok .tbool [("type", .vstr "boolean")] v h
  · intro v h; exact prim_err .tbool [("type", .vstr "boolean")] v h

/-- Witness for C6: concrete well-typed and ill-typed scalars through each
primitive conversion. -/
theorem primitive_conversions_spec_witness :
    string_conv.to_json (.vstr "a") = .ok (.vstr "a") ∧
    string_conv.from_json (.vint 3) =
      .error (.assertionError "Value 3 is not of type <class 'str'>") ∧
    int_conv.to_json (.vint 3) = .ok (.vint 3) ∧
    int_conv.to_json (.vstr "x") =
      .error (.assertionError "Value 'x' is not of type <class 'int'>") ∧
    float_conv.to_json (.vint 1) =
      .error (.assertionError "Value 1 is not of type <class 'float'>") ∧
    bool_conv.from_json (.vint 1) =
      .error (.assertionError "Value 1 is not of type <class 'bool'>") :=
  ⟨(primitive_conversions_spec.1 (.vstr "a") rfl).1,
   (primitive_conversions_spec.2.1 (.vint 3) rfl).2,
   (primitive_conversions_spec.2.2.1 (.vint 3) rfl).1,
   (primitive_conversions_spec.2.2.2.1 (.vstr "x") rfl).1,
   (primitive_conversions_spec.2.2.2.2.2.1 (.vint 1) rfl).1,
   (primitive_conversions_spec.2.2.2.2.2.2.2 (.vint 1) rfl).2⟩

/-- C10: `int_conv` accepts Python booleans in both directions and returns
them unchanged, because `bool` is a subclass of `int` and the type guard
uses `isinstance`; the type-mismatch branch is unreachable for booleans. -/
theorem int_conv_accepts_bool_spec (b : Bool) :
    int_conv.to_json (.vbool b) = .ok (.vbool b) ∧
    int_conv.from_json (.vbool b) = .ok (.vbool b) :=
  ⟨rfl, rfl⟩

/-- C8: the definition-time validator accepts a record declaration exactly
when the field-name set equals the conversion-map key set, and on mismatch
raises a configuration error enumerating the fields missing a conversion
and the conversion-map keys with no matching field; a sequence type without
an item conversion is likewise rejected at declaration time. -/
theorem definition_time_validation_spec :
    (∀ flds ks : List String,
      flds.filter (fun n => !elemS n ks) = [] →
      ks.filter (fun k => !elemS k flds) = [] →
      objDefinitionCheck flds (some ks) = .ok ()) ∧
    (∀ flds ks : List String,
      flds.filter (fun n => !elemS n ks) ≠ [] ∨ ks.filter (fun k => !elemS k flds) ≠ [] →
      objDefinitionCheck flds (some ks) =
        .error (.configError "field set does not match conversion keys"
          (flds.filter (fun n => !elemS n ks)) (ks.filter (fun k => !elemS k flds)))) ∧
    (∀ flds : List String, objDefinitionCheck flds none =
      .error (.configError "conversion map is not set" [] [])) ∧
    (arrDefinitionCheck none = .error (.configError "item conversion is not set" [] [])) ∧
    (∀ c : Conv, arrDefinitionCheck (some c) = .ok ()) := by
  refine ⟨?_, ?_, fun _ => rfl, rfl, fun _ => rfl⟩
  · intro flds ks h1 h2
    simp [objDefinitionCheck, h1, h2]
  · intro flds ks hne
    cases hm : flds.filter (fun n => !elemS n ks) with
    | nil =>
      cases hx : ks.filter (fun k => !elemS k flds) with
      | nil => rw [hm, hx] at hne; simp at hne
      | cons y ys => simp [objDefinitionCheck, hm, hx]
    | cons x xs =>
      cases hx : ks.filter (fun k => !elemS k flds) with
      | nil => simp [objDefinitionCheck, hm, hx]
      | cons y ys => simp [objDefinitionCheck, hm, hx]

/-- Witness for C8: a matching declaration passes, a field without a
conversion and a conversion key without a field are both enumerated. -/
theorem definition_time_validation_witness :
    objDefinitionCheck ["a", "b"] (some ["a", "b"]) = .ok () ∧
    objDefinitionCheck ["a", "b"] (some ["a", "c"]) =
      .error (.configError "field set does not match conversion keys" ["b"] ["c"]) :=
  ⟨definition_time_validation_spec.1 ["a", "b"] ["a", "b"] rfl rfl,
   definition_time_validation_spec.2.1 ["a", "b"] ["a", "c"]
     (.inl (by simp [elemS]))⟩

/-- C3 (the code side): the aliased record type of
tests/test_schema.py::test_obj_with_aliases_schema.  `ObjWithAliases.schema`
splats the per-field schemas at top level: the result carries no
`properties` and no `required` key at all, while plain `Obj.schema` does
produce the `required` list (the fields not wrapped in `MaybeMissing`). -/
theorem objWithAliases_schema_counterexample :
    ObjWithAliases.schema [("def_", "def")] [("def_", string_conv), ("foo", int_conv)] =
      [("type", .vstr "object"),
       ("def", .vdict [("type", .vstr "string")]),
       ("foo", .vdict [("type", .vstr "integer")])] ∧
    hasKeyS (ObjWithAliases.schema [("def_", "def")]
      [("def_", string_conv), ("foo", int_conv)]) "properties" = false ∧
    hasKeyS (ObjWithAliases.schema [("def_", "def")]
      [("def_", string_conv), ("foo", int_conv)]) "required" = false ∧
    lookupS (Obj.schema (ObjDesc.mk "Foo" [("def_", false), ("foo", false)]
      [("def_", string_conv), ("foo", int_conv)])) "required" =
      some (.vlist [.vstr "def_", .vstr "foo"]) :=
  ⟨rfl, rfl, rfl, rfl⟩

/-- The `required` list of `Obj.schema` is exactly the declared fields not
annotated `MaybeMissing[...]`, and the field schemas sit under
`properties`. -/
theorem obj_schema_required_eq (d : ObjDesc) :
    lookupS (Obj.schema d) "required" =
      some (.vlist ((d.fields.filter (fun f => !f.2)).map (fun f => .vstr f.1))) ∧
    lookupS (Obj.schema d) "properties" =
      some (.vdict (d.conv.map (fun nc => (nc.1, .vdict nc.2.schema)))) :=
  ⟨rfl, rfl⟩

/-- A field entry emitted by the serialization step carries the field's own
name as key. -/
theorem objToField_key {conv : List (String × Conv)} {n : String} {item : Val}
    {kv : String × Val} (h : objToField conv n item = .ok (some kv)) : kv.1 = n := by
  simp only [objToField] at h
  split at h
  · rename_i r heq
    rw [h] at heq
    split at heq
    · simp_all
    · split at heq
      · split at heq
        · injection heq with h1; injection h1 with h2; rw [← h2]
        · simp_all
      · simp_all
      · split at heq
        · injection heq with h1; injection h1 with h2; rw [← h2]
        · simp_all
  · simp_all
  · simp_all

/-- Restriction to a key set preserves lookups of keys in the set. -/
theorem lookupS_restrict (names : List String) {k : String}
    (hk : elemS k names = true) :
    ∀ kvs : List (String × Val), lookupS (restrictKeys kvs names) k = lookupS kvs k := by
  intro kvs
  induction kvs with
  | nil => rfl
  | cons kv rest ih =>
      rw [restrictKeys]
      by_cases hkv : kv.1 = k
      · rw [if_pos (by rw [hkv]; exact hk)]
        rw [lookupS, lookupS, if_pos hkv, if_pos hkv]
      · by_cases hp : elemS kv.1 names = true
        · rw [if_pos hp, lookupS, lookupS, if_neg hkv, if_neg hkv, ih]
        · rw [if_neg hp, ih, lookupS, if_neg hkv]

/-- The field-parse loop reads the input only at the declared field keys. -/
theorem objFromJsonLoop_congr (conv : List (String × Conv))
    (p1 p2 : List (String × Val)) :
    ∀ flds : List (String × Bool), (∀ f ∈ flds, lookupS p1 f.1 = lookupS p2 f.1) →
      objFromJsonLoop conv p1 flds = objFromJsonLoop conv p2 flds := by
  intro flds
  induction flds with
  | nil => intro _; rfl
  | cons f fs ih =>
      intro h
      rw [objFromJsonLoop, objFromJsonLoop,
        objFromField_congr (h f (List.mem_cons_self f fs)),
        ih (fun g hg => h g (List.mem_cons_of_mem f hg))]

/-- C9: `Obj.from_json` silently ignores undeclared input keys — parsing any
object gives the same result as parsing it restricted to the declared field
names — and `Obj.as_json` only ever emits keys of the instance's own fields,
so extra input keys are never re-emitted. -/
theorem extra_keys_ignored_spec :
    (∀ (d : ObjDesc) (kvs : List (String × Val)),
      Obj.from_json d (.vdict kvs) =
        Obj.from_json d (.vdict (restrictKeys kvs (d.fields.map Prod.fst)))) ∧
    (∀ (conv : List (String × Conv)) (inst out : List (String × Val)),
      objAsJsonLoop conv inst = .ok out →
      ∀ m, m ∈ out.map Prod.fst → m ∈ inst.map Prod.fst) := by
  constructor
  · intro d kvs
    simp only [Obj.from_json]
    rw [objFromJsonLoop_congr d.conv kvs (restrictKeys kvs (d.fields.map Prod.fst))
      d.fields (fun f hf => (lookupS_restrict (d.fields.map Prod.fst)
        (elemS_eq_true_iff.mpr (List.mem_map_of_mem Prod.fst hf)) kvs).symm)]
  · intro conv inst
    induction inst with
    | nil =>
        intro out h m hm
        rw [objAsJsonLoop] at h
        injection h with h1
        subst h1
        simp at hm
    | cons e es ih =>
        intro out h m hm
        obtain ⟨nm, it⟩ := e
        rw [objAsJsonLoop] at h
        cases hstep : objToField conv nm it with
        | error er => rw [hstep] at h; exact absurd h (by simp)
        | ok o =>
            rw [hstep] at h
            cases o with
            | none =>
                rw [List.map_cons]
                exact List.mem_cons_of_mem _ (ih out h m hm)
            | some kv =>
                cases hrest : objAsJsonLoop conv es with
                | error er => rw [hrest] at h; exact absurd h (by simp)
                | ok out' =>
                    rw [hrest] at h
                    injection h with h1
                    subst h1
                    rw [List.map_cons] at hm ⊢
                    rcases List.mem_cons.mp hm with h1 | h2
                    · exact List.mem_cons.mpr (.inl (h1.trans (objToField_key hstep)))
                    · exact List.mem_cons.mpr (.inr (ih out' hrest m h2))

/-- Witness for C9: a one-field record emits only its own key. -/
theorem extra_keys_ignored_witness :
    ("a" : String) ∈ ([(("a" : String), Val.vint 1)].map Prod.fst) :=
  extra_keys_ignored_spec.2 [("a", int_conv)] [("a", .vint 1)] [("a", .vint 1)]
    rfl "a" (by simp)
